import Mathlib

/-!
Shallow embedding of the gazelle label-resolution and rule-generation
subsystem (packages `rules` and `generator` of the repository), together
with theorems checking the natural-language specification against it.

Strings are modelled as Lean `String`; Go's byte-index operations are
used here only on ASCII separators ("/", "./"), where byte indices and
character indices coincide.
-/

instance {α β : Type} [DecidableEq α] [DecidableEq β] : DecidableEq (Except α β) :=
  fun a b =>
    match a, b with
    | .ok x, .ok y =>
        if h : x = y then .isTrue (by rw [h])
        else .isFalse (by intro hc; cases hc; exact h rfl)
    | .error x, .error y =>
        if h : x = y then .isTrue (by rw [h])
        else .isFalse (by intro hc; cases hc; exact h rfl)
    | .ok _, .error _ => .isFalse (by intro hc; cases hc)
    | .error _, .ok _ => .isFalse (by intro hc; cases hc)

/-- Go `strings.HasPrefix s pre`. -/
def goHasPfx (s pre : String) : Bool :=
  pre.data.isPrefixOf s.data

/-- Go `strings.TrimPrefix s pre`. -/
def goTrimPfx (s pre : String) : String :=
  if goHasPfx s pre then String.mk (s.data.drop pre.data.length) else s

/-- Go slice expression `s[n:]` (ASCII positions). -/
def strDrop (s : String) (n : Nat) : String :=
  String.mk (s.data.drop n)

/-- Go slice expression `s[:n]` (ASCII positions). -/
def strTake (s : String) (n : Nat) : String :=
  String.mk (s.data.take n)

/-- Go `strings.LastIndex s sub`: the largest index at which `sub` occurs
in `s`, or `none` where Go returns -1. -/
def lastIndexOf (s sub : String) : Option Nat :=
  ((List.range (s.data.length + 1)).filter
    (fun i => sub.data.isPrefixOf (s.data.drop i))).max?

/-- Go `strings.SplitN p "/" 2` followed by taking element 0: the first
path segment of `p`, up to (not including) the first slash. -/
def firstSeg (p : String) : String :=
  String.mk (p.data.takeWhile (fun c => c ≠ '/'))

/-- Split a character list at every slash (the semantics of Go
`strings.Split p "/"` on the underlying characters). -/
def splitSlash : List Char → List (List Char)
  | [] => [[]]
  | c :: rest =>
    let r := splitSlash rest
    if c = '/' then [] :: r
    else
      match r with
      | s :: ss => (c :: s) :: ss
      | [] => [[c]]

/-- Join character-list segments with a slash between consecutive
segments (the semantics of Go `strings.Join segs "/"`). -/
def joinSlash : List (List Char) → List Char
  | [] => []
  | [s] => s
  | s :: rest => s ++ '/' :: joinSlash rest

/-- One step of the segment processing inside Go `path.Clean`: `acc` holds
the output segments in reverse order. -/
def cleanStep (rooted : Bool) (acc : List (List Char)) (seg : List Char) :
    List (List Char) :=
  if seg = [] || seg = ['.'] then acc
  else if seg = ['.', '.'] then
    match acc with
    | [] => if rooted then [] else [['.', '.']]
    | a :: rest => if a = ['.', '.'] then seg :: acc else rest
  else seg :: acc

/-- Go `path.Clean`: lexical processing of ".", "..", and repeated or
trailing slashes. -/
def pathClean (p : String) : String :=
  if p = "" then "."
  else
    let rooted := goHasPfx p "/"
    let out := ((splitSlash p.data).foldl (cleanStep rooted) []).reverse
    let joined := joinSlash out
    if rooted then String.mk ('/' :: joined)
    else if joined = [] then "." else String.mk joined

/-- Go `path.Join`: drop leading empty elements, join the rest with "/",
then clean; all-empty input gives "". -/
def pathJoin (elems : List String) : String :=
  match elems.dropWhile (fun e => e = "") with
  | [] => ""
  | rest => pathClean (String.mk (joinSlash (rest.map String.data)))

/-- Go `path.Base`: the last element of the path, after removing trailing
slashes. -/
def pathBase (p : String) : String :=
  if p = "" then "."
  else
    let t := (p.data.reverse.dropWhile (fun c => c = '/')).reverse
    if t = [] then "/"
    else String.mk (t.reverse.takeWhile (fun c => c ≠ '/')).reverse

/-- A build-target reference (`label` in package `rules`): a name, the
owning package path when absolute, and a relative flag. -/
structure label where
  pkg : String := ""
  name : String := ""
  relative : Bool := false
deriving Repr, DecidableEq

/-- Modelled from the spec: the `label.String` method is referenced by
`generator.dependencies` but its definition is not under `src/`.  Per the
spec, a relative label needs no path qualifier and an absolute label is
self-contained, in conventional build-label syntax. -/
def label.String (l : label) : String :=
  if l.relative then ":" ++ l.name else "//" ++ l.pkg ++ ":" ++ l.name

/-- `flatResolver`: same-repository resolver for the single-BUILD-file
layout, keyed by the repository's go_prefix. -/
structure flatResolver where
  goPfx : String

/-- The leading-"./" rewrite performed at the top of
`flatResolver.resolve`: a relative import is joined onto
`goPrefix/contextDir` before the prefix rules apply. -/
def flatRewrite (goPfx dir importpath : String) : String :=
  if goHasPfx importpath "./" then pathJoin [goPfx, dir, strDrop importpath 2]
  else importpath

/-- `flatResolver.resolve` from the source: after the "./" rewrite, the
go_prefix itself maps to the relative default-library label, any path
under `goPrefix/` maps to a relative label named by the suffix, and
everything else fails. -/
def flatResolver.resolve (r : flatResolver) (importpath dir : String) :
    Except String label :=
  let ip := flatRewrite r.goPfx dir importpath
  if ip = r.goPfx then
    .ok { name := "go_default_library", relative := true }
  else if goHasPfx ip (r.goPfx ++ "/") then
    .ok { name := goTrimPfx ip (r.goPfx ++ "/"), relative := true }
  else
    .error ("importpath \"" ++ ip ++ "\" does not start with goPrefix \"" ++
      r.goPfx ++ "\"")

example :
    flatResolver.resolve { goPfx := "example.com/repo" } "example.com/repo" "" =
      .ok { name := "go_default_library", relative := true } := by decide

example :
    flatResolver.resolve { goPfx := "example.com/repo" } "example.com/repo/lib/sub" "lib" =
      .ok { name := "lib/sub", relative := true } := by decide

example :
    (flatResolver.resolve { goPfx := "example.com/repo" } "example.com/repo_suffix" "").isOk
      = false := by decide

example :
    flatResolver.resolve { goPfx := "example.com/repo" } "./sub" "lib" =
      .ok { name := "lib/sub", relative := true } := by decide

/-- `structuredResolver`: same-repository resolver for the
one-BUILD-file-per-directory layout. -/
structure structuredResolver where
  goPfx : String

/-- Modelled from the spec: `structuredResolver.resolve` is selected by
`NewGenerator` but its definition is not under `src/`.  Per the spec, the
go_prefix itself maps to the absolute default-library label of the
repository root, a path under `goPrefix/` maps to the absolute
default-library label of the directory named by the suffix, and
everything else fails. -/
def structuredResolver.resolve (r : structuredResolver) (importpath _dir : String) :
    Except String label :=
  if importpath = r.goPfx then
    .ok { pkg := "", name := "go_default_library", relative := false }
  else if goHasPfx importpath (r.goPfx ++ "/") then
    .ok { pkg := goTrimPfx importpath (r.goPfx ++ "/"),
          name := "go_default_library", relative := false }
  else
    .error ("importpath \"" ++ importpath ++ "\" does not start with goPrefix \"" ++
      r.goPfx ++ "\"")

/-- Modelled from the spec: the external resolver's definition is not
under `src/`; the spec treats it as an injected capability that never
fails for syntactically valid paths and derives a label from the import
path's first segment (external repository identifier) and remainder
(in-repository target path). -/
def externalResolve (importpath _dir : String) : Except String label :=
  .ok { pkg := goTrimPfx importpath (firstSeg importpath ++ "/"),
        name := "go_default_library", relative := false }

/-- `isStandard` from `rules/generator.go`: an import path is treated as a
Go standard-library package when its first slash-separated segment
contains no dot. -/
def isStandard (importpath : String) : Bool :=
  !((firstSeg importpath).data.contains '.')

example : isStandard "fmt" = true := by decide
example : isStandard "example.com/repo" = false := by decide
example : isStandard "encoding/json" = true := by decide

/-- The reserved default-library name (`defaultLibName`). -/
def defaultLibName : String := "go_default_library"

/-- The reserved internal-test name (`defaultTestName`). -/
def defaultTestName : String := "go_default_test"

/-- The reserved external-test name (`defaultXTestName`). -/
def defaultXTestName : String := "go_default_xtest"

/-- A `Style` describes a strategy of organizing BUILD files. -/
inductive Style where
  | StructuredStyle
  | FlatStyle
deriving Repr, DecidableEq

/-- An attribute value in a generated rule: a string or a list of
strings (the only value shapes the generator produces). -/
inductive attrValue where
  | str (s : String)
  | strs (l : List String)
deriving Repr, DecidableEq

/-- A named attribute of a rule (`keyvalue` in the source). -/
structure keyvalue where
  key : String
  value : attrValue
deriving Repr, DecidableEq

/-- A generated build rule: its kind, positional arguments, and named
attributes in insertion order (`bzl.Rule` as used by the generator). -/
structure Rule where
  kind : String
  args : List String
  attrs : List keyvalue
deriving Repr, DecidableEq

/-- `newRule` builds a rule call from a kind, positional arguments and
attributes.  The source's version can only fail while marshalling Go
values of unsupported types; the value shapes used by the generator
(strings and string lists) always marshal, so the embedding is total. -/
def newRule (kind : String) (args : List String) (attrs : List keyvalue) :
    Except String Rule :=
  .ok { kind := kind, args := args, attrs := attrs }

/-- `bzl.Rule.AttrString`: the string value of the named attribute, or ""
when absent or not a string. -/
def Rule.AttrString (r : Rule) (name : String) : String :=
  match r.attrs.find? (fun kv => kv.key == name) with
  | some ⟨_, .str s⟩ => s
  | _ => ""

/-- The fields of `go/build.Package` consumed by the rule generator. -/
structure Package where
  name : String := ""
  dir : String := ""
  goFiles : List String := []
  testGoFiles : List String := []
  xtestGoFiles : List String := []
  imports : List String := []
  testImports : List String := []
  xtestImports : List String := []
deriving Repr, DecidableEq

/-- `go/build.Package.IsCommand`: a package is a command when it is named
"main". -/
def Package.IsCommand (p : Package) : Bool := p.name == "main"

/-- The generator state built by `NewGenerator`: the go_prefix, the
dispatching resolver, and the style-dependent source-path transform. -/
structure generator where
  goPfx : String
  r : String → String → Except String label
  refSrc : String → List String → List String

/-- `NewGenerator` from `rules/generator.go`: selects the local resolver
and the source transform from the style, and wraps the local and external
resolvers in the dispatch function of lines 94-99.  The external resolver
is the injected capability `e`. -/
def NewGenerator (goPfx : String) (s : Style)
    (e : String → String → Except String label) : generator :=
  let locR : String → String → Except String label :=
    match s with
    | .StructuredStyle => fun ip dir => structuredResolver.resolve { goPfx := goPfx } ip dir
    | .FlatStyle => fun ip dir => flatResolver.resolve { goPfx := goPfx } ip dir
  let refSrc : String → List String → List String :=
    match s with
    | .StructuredStyle => fun _ srcs => srcs
    | .FlatStyle => fun rel srcs => srcs.map (fun f => pathJoin [rel, f])
  { goPfx := goPfx
    r := fun importpath dir =>
      if importpath != goPfx && !goHasPfx importpath (goPfx ++ "/") &&
          !goHasPfx importpath "./" then
        e importpath dir
      else
        locR importpath dir
    refSrc := refSrc }

/-- `generator.dependencies`: drop standard-library entries, resolve the
rest in input order, and collect the labels' string forms; the first
resolution failure aborts with that error. -/
def generator.dependencies (g : generator) (imports : List String) (dir : String) :
    Except String (List String) :=
  match imports with
  | [] => .ok []
  | p :: rest =>
    if isStandard p then g.dependencies rest dir
    else do
      let l ← g.r p dir
      let ds ← g.dependencies rest dir
      .ok (label.String l :: ds)

/-- `generator.generate`: the primary library or binary rule of a
package (lines 144-178 of `rules/generator.go`). -/
def generator.generate (g : generator) (rel : String) (pkg : Package) :
    Except String Rule := do
  let l ← g.r (pathJoin [g.goPfx, rel]) ""
  let name := if pkg.IsCommand then pathBase pkg.dir else l.name
  let kind := if pkg.IsCommand then "go_binary" else "go_library"
  let visibility :=
    match lastIndexOf rel "/internal/" with
    | some i => "//" ++ strTake rel i ++ ":__subpackages__"
    | none =>
      if goHasPfx rel "internal/" then "//:__subpackages__"
      else "//visibility:public"
  let attrs := [
    ⟨"name", .str name⟩,
    ⟨"srcs", .strs (g.refSrc rel pkg.goFiles)⟩,
    ⟨"visibility", .strs [visibility]⟩]
  let deps ← g.dependencies pkg.imports rel
  let attrs := if deps.length > 0 then attrs ++ [⟨"deps", .strs deps⟩] else attrs
  newRule kind [] attrs

/-- `generator.generateTest`: the internal test rule, referencing the
primary rule through the `library` attribute. -/
def generator.generateTest (g : generator) (rel : String) (pkg : Package)
    (library : String) : Except String Rule := do
  let name := if library = defaultLibName then defaultTestName else library ++ "_test"
  let attrs := [
    ⟨"name", .str name⟩,
    ⟨"srcs", .strs (g.refSrc rel pkg.testGoFiles)⟩,
    ⟨"library", .str (":" ++ library)⟩]
  let deps ← g.dependencies pkg.testImports rel
  let attrs := if deps.length > 0 then attrs ++ [⟨"deps", .strs deps⟩] else attrs
  newRule "go_test" [] attrs

/-- `generator.generateXTest`: the external test rule; note that its
`deps` attribute is appended unconditionally (line 215). -/
def generator.generateXTest (g : generator) (rel : String) (pkg : Package)
    (library : String) : Except String Rule := do
  let name := if library = defaultLibName then defaultXTestName else library ++ "_xtest"
  let attrs := [
    ⟨"name", .str name⟩,
    ⟨"srcs", .strs (g.refSrc rel pkg.xtestGoFiles)⟩]
  let deps ← g.dependencies pkg.xtestImports rel
  let attrs := attrs ++ [⟨"deps", .strs deps⟩]
  newRule "go_test" [] attrs

/-- `generator.Generate`: the rule list of one package — a go_prefix rule
at the repository root, the primary rule, and test rules when test files
exist. -/
def generator.Generate (g : generator) (rel : String) (pkg : Package) :
    Except String (List Rule) :=
  match (if rel = "" then (newRule "go_prefix" [g.goPfx] []).map (fun p => [p])
         else .ok []) with
  | .error e => .error e
  | .ok pre =>
    match g.generate rel pkg with
    | .error e => .error e
    | .ok r =>
      match (if pkg.testGoFiles.length > 0 then
               (g.generateTest rel pkg (r.AttrString "name")).map (fun t => [t])
             else .ok []) with
      | .error e => .error e
      | .ok ts =>
        match (if pkg.xtestGoFiles.length > 0 then
                 (g.generateXTest rel pkg (r.AttrString "name")).map (fun t => [t])
               else .ok []) with
        | .error e => .error e
        | .ok xs => .ok (pre ++ [r] ++ ts ++ xs)


/-- A statement of a build-file document: a load statement or a rule
call (the two statement shapes the core appends to a `bzl.File`). -/
inductive Stmt where
  | load (src : String) (kinds : List String)
  | call (r : Rule)
deriving Repr, DecidableEq

/-- A build-file document (`bzl.File`): a path and an ordered statement
list. -/
structure File where
  path : String
  stmt : List Stmt
deriving Repr, DecidableEq

/-- `GoRulesBzl`: the label of the Skylark file providing the Go rules. -/
def GoRulesBzl : String := "@io_bazel_rules_go//go:def.bzl"

/-- `bzl.File.Rules kind`: the rule calls of the given kind present in
the file. -/
def File.Rules (f : File) (kind : String) : List Rule :=
  f.stmt.filterMap (fun s =>
    match s with
    | .call r => if r.kind == kind then some r else none
    | .load _ _ => none)

/-- `loadExpr` from `generator/generator.go`: a single load statement
naming `GoRulesBzl` and the given kinds sorted lexicographically
(Go `sort.Strings`, embedded as insertion sort). -/
def loadExpr (rules : List String) : Stmt :=
  .load GoRulesBzl (List.insertionSort (fun a b => a ≤ b) rules)

/-- The fixed recognized rule-kind vocabulary scanned by
`generateLoad`. -/
def loadVocab : List String :=
  ["go_prefix", "go_library", "go_binary", "go_test", "cgo_library"]

/-- `Generator.generateLoad`: the load statement for a file, or none when
no recognized rule kind occurs in it. -/
def generateLoad (f : File) : Option Stmt :=
  let list := loadVocab.filter (fun kind => (f.Rules kind).length > 0)
  if list.length = 0 then none else some (loadExpr list)

/-- `Generator.emptyToplevel`: the minimal root BUILD file carrying only
the go_prefix declaration. -/
def emptyToplevel (goPfx buildFileName : String) : File :=
  { path := buildFileName
    stmt := [loadExpr ["go_prefix"],
             .call { kind := "go_prefix", args := [goPfx], attrs := [] }] }

/-- `Generator.generateOne`: the build-file document of one package — the
rule calls in generation order, with the load statement prepended when
one is needed. -/
def generateOne (buildFileName : String) (gr : generator) (rel : String)
    (pkg : Package) : Except String File := do
  let rs ← gr.Generate rel pkg
  let file : File := { path := pathJoin [rel, buildFileName], stmt := rs.map .call }
  match generateLoad file with
  | some l => .ok { file with stmt := l :: file.stmt }
  | none => .ok file

/-- `Generator.Generate` from `generator/generator.go`, with the external
walker abstracted as the delivered sequence of (relative directory,
package) pairs: normalize "." to "", inject the minimal root file when
the first delivered package is not at the root, and collect one file per
package; the first error aborts the run. -/
def generateFiles (goPfx buildFileName : String) (gr : generator)
    (pkgs : List (String × Package)) : Except String (List File) :=
  pkgs.foldlM (fun files rp => do
    let rel := if rp.1 = "." then "" else rp.1
    let files :=
      if files.length = 0 && rel != "" then files ++ [emptyToplevel goPfx buildFileName]
      else files
    let file ← generateOne buildFileName gr rel rp.2
    pure (files ++ [file])) []

lemma data_append_slash (P s : String) :
    (P ++ "/" ++ s).data = P.data ++ '/' :: s.data := by
  simp [String.data_append]

lemma append_slash_ne (P s : String) : P ++ "/" ++ s ≠ P := by
  intro h
  have hlen := congrArg String.length h
  have hone : ("/" : String).length = 1 := rfl
  simp [String.length_append, hone] at hlen
  omega

lemma goHasPfx_append_slash (P s : String) :
    goHasPfx (P ++ "/" ++ s) (P ++ "/") = true := by
  unfold goHasPfx
  rw [ List.isPrefixOf_iff_prefix]
  have : (P ++ "/" ++ s).data = (P ++ "/").data ++ s.data := by
    simp [String.data_append]
  rw [this]
  exact List.prefix_append _ _

lemma goTrimPfx_append_slash (P s : String) :
    goTrimPfx (P ++ "/" ++ s) (P ++ "/") = s := by
  unfold goTrimPfx
  rw [goHasPfx_append_slash]
  simp only [if_pos]
  have hd : (P ++ "/" ++ s).data = (P ++ "/").data ++ s.data := by
    simp [String.data_append]
  rw [hd, List.drop_left]

lemma not_dotSlash_append (P s : String) (h1 : goHasPfx P "./" = false)
    (h2 : P ≠ ".") : goHasPfx (P ++ "/" ++ s) "./" = false := by
  have hd : (P ++ "/" ++ s).data = P.data ++ '/' :: s.data := data_append_slash P s
  unfold goHasPfx at h1 ⊢
  rw [hd]
  have hdot : ("./" : String).data = ['.', '/'] := rfl
  rw [hdot] at h1 ⊢
  match hP : P.data with
  | [] => simp [List.isPrefixOf]
  | [c] =>
    have hc : c ≠ '.' := by
      intro hc
      apply h2
      apply String.ext
      rw [hP, hc]
    simp only [List.cons_append, List.nil_append, List.isPrefixOf,
      Bool.and_eq_false_iff, beq_eq_false_iff_ne, ne_eq]
    left
    intro h
    exact hc h.symm
  | c1 :: c2 :: t =>
    rw [hP] at h1
    simp [List.isPrefixOf] at h1 ⊢
    intro ha hb
    exact h1 ha hb

/-- C1: for the flat same-repository resolver with root go_prefix P (a
sane prefix: not itself starting with "./" and not "."), resolving P in
any context directory yields the relative default-library label;
resolving P ++ "/" ++ s for non-empty s yields the relative label named
s in any context directory; and any import path whose "./"-rewritten
form neither equals P nor starts with P ++ "/" fails with an error. -/
theorem c1_flat_resolver (P d : String) (h1 : goHasPfx P "./" = false)
    (h2 : P ≠ ".") :
    (flatResolver.resolve { goPfx := P } P d =
      .ok { name := "go_default_library", relative := true }) ∧
    (∀ s : String, s ≠ "" →
      flatResolver.resolve { goPfx := P } (P ++ "/" ++ s) d =
        .ok { name := s, relative := true }) ∧
    (∀ p : String, flatRewrite P d p ≠ P →
      goHasPfx (flatRewrite P d p) (P ++ "/") = false →
      ∃ e, flatResolver.resolve { goPfx := P } p d = .error e) := by
  refine ⟨?_, ?_, ?_⟩
  · unfold flatResolver.resolve flatRewrite
    simp [h1]
  · intro s _hs
    unfold flatResolver.resolve flatRewrite
    rw [not_dotSlash_append P s h1 h2]
    simp only [Bool.false_eq_true, if_false,
      if_neg (append_slash_ne P s), goHasPfx_append_slash, if_pos,
      goTrimPfx_append_slash]
  · intro p hne hpfx
    unfold flatResolver.resolve
    simp only [if_neg hne, hpfx, Bool.false_eq_true, if_false]
    exact ⟨_, rfl⟩

theorem c1_flat_resolver_witness :
    (flatResolver.resolve { goPfx := "example.com/repo" } "example.com/repo" "lib" =
      .ok { name := "go_default_library", relative := true }) ∧
    (flatResolver.resolve { goPfx := "example.com/repo" }
        ("example.com/repo" ++ "/" ++ "lib/sub") "lib" =
      .ok { name := "lib/sub", relative := true }) ∧
    (∃ e, flatResolver.resolve { goPfx := "example.com/repo" } "example.com/another" "lib" =
      .error e) :=
  ⟨(c1_flat_resolver "example.com/repo" "lib" (by decide) (by decide)).1,
   (c1_flat_resolver "example.com/repo" "lib" (by decide) (by decide)).2.1
     "lib/sub" (by decide),
   (c1_flat_resolver "example.com/repo" "lib" (by decide) (by decide)).2.2
     "example.com/another" (by decide) (by decide)⟩

lemma splitSlash_ne_nil (l : List Char) : splitSlash l ≠ [] := by
  cases l with
  | nil => simp [splitSlash]
  | cons c rest =>
    unfold splitSlash
    by_cases hc : c = '/'
    · simp [hc]
    · simp only [hc, if_false]
      cases splitSlash rest with
      | nil => simp
      | cons s ss => simp

lemma splitSlash_headI (l : List Char) :
    (splitSlash l).headI = l.takeWhile (fun c => c ≠ '/') := by
  induction l with
  | nil => simp [splitSlash]
  | cons c rest ih =>
    unfold splitSlash
    by_cases hc : c = '/'
    · simp [hc, List.takeWhile]
    · simp only [hc, if_false]
      cases hr : splitSlash rest with
      | nil => exact absurd hr (splitSlash_ne_nil rest)
      | cons s ss =>
        rw [hr] at ih
        simp only [List.headI] at ih
        simp [List.takeWhile_cons, hc, ih]

/-- C2 counterexample: "encoding/json" has two path segments, so by the
claim it is not standard and should be resolved into one deps entry; the
code classifies it as standard (its first segment has no dot) and filters
it, producing an empty deps list. -/
theorem c2_counterexample :
    (splitSlash ("encoding/json" : String).data).length = 2 ∧
    isStandard "encoding/json" = true ∧
    (NewGenerator "example.com/repo" .FlatStyle externalResolve).dependencies
      ["encoding/json"] "" = .ok [] := by decide

/-- C2 (amended): an import path is classified standard exactly when its
FIRST path segment contains no dot; every non-standard entry is resolved
and contributes one deps entry, in input order. -/
theorem c2_std_filter (g : generator) (imports : List String) (dir : String)
    (f : String → label)
    (h : ∀ p ∈ imports, isStandard p = false → g.r p dir = .ok (f p)) :
    (∀ p : String, isStandard p = true ↔
      '.' ∉ (splitSlash p.data).headI) ∧
    g.dependencies imports dir =
      .ok ((imports.filter (fun p => !isStandard p)).map
        (fun p => label.String (f p))) := by
  constructor
  · intro p
    unfold isStandard firstSeg
    rw [splitSlash_headI]
    simp [List.contains, List.elem_iff]
  · induction imports with
    | nil => simp [generator.dependencies]
    | cons p rest ih =>
      unfold generator.dependencies
      by_cases hp : isStandard p = true
      · rw [if_pos hp]
        rw [ih (fun q hq hstd => h q (List.mem_cons_of_mem p hq) hstd)]
        simp [List.filter, hp]
      · have hp' : isStandard p = false := by
          cases hstd : isStandard p
          · rfl
          · exact absurd hstd hp
        rw [if_neg hp]
        rw [h p (List.mem_cons_self p rest) hp']
        rw [ih (fun q hq hstd => h q (List.mem_cons_of_mem p hq) hstd)]
        simp only [List.filter, hp', Bool.not_false, List.map]
        rfl

theorem c2_std_filter_witness :
    (NewGenerator "example.com/repo" .FlatStyle externalResolve).dependencies
      ["fmt", "example.com/repo/lib", "github.com/x/y"] "" =
      .ok [":lib", "//x/y:go_default_library"] := by
  have h := (c2_std_filter
    (NewGenerator "example.com/repo" .FlatStyle externalResolve)
    ["fmt", "example.com/repo/lib", "github.com/x/y"] ""
    (fun p => match (NewGenerator "example.com/repo" .FlatStyle externalResolve).r p "" with
      | .ok l => l
      | .error _ => {})
    (by decide)).2
  rw [h]
  decide

/-- C3 counterexample: for the import path "./foo" under go_prefix
"example.com/repo", the path with its leading "./" stripped neither
equals the go_prefix nor starts with it, so the claim says the external
resolver is consulted; the dispatch wrapper nevertheless routes it to
the local flat resolver, whose answer (a relative label named "foo",
after the join rewrite) is returned instead of the external resolver's
marker label. -/
theorem c3_counterexample :
    (strDrop "./foo" 2 ≠ "example.com/repo" ∧
     goHasPfx (strDrop "./foo" 2) ("example.com/repo" ++ "/") = false) ∧
    (NewGenerator "example.com/repo" .FlatStyle
        (fun _ _ => .ok { name := "EXTERNAL" })).r "./foo" "" =
      .ok { name := "foo", relative := true } := by decide

/-- C3 (amended): the dispatch wrapper consults the external resolver iff
the import path does not begin with "./" and neither equals the go_prefix
nor starts with the go_prefix followed by "/"; every "./"-prefixed path
goes to the style-selected local resolver. -/
theorem c3_dispatch (goPfx : String) (st : Style)
    (e : String → String → Except String label) (p d : String) :
    (NewGenerator goPfx st e).r p d =
      if p ≠ goPfx ∧ goHasPfx p (goPfx ++ "/") = false ∧ goHasPfx p "./" = false
      then e p d
      else
        match st with
        | .StructuredStyle => structuredResolver.resolve { goPfx := goPfx } p d
        | .FlatStyle => flatResolver.resolve { goPfx := goPfx } p d := by
  unfold NewGenerator
  cases st <;>
    · simp only []
      by_cases h1 : p = goPfx
      · simp [h1]
      · by_cases h2 : goHasPfx p (goPfx ++ "/")
        · simp [h1, h2]
        · by_cases h3 : goHasPfx p "./"
          · simp [h1, h2, h3]
          · simp [h1, h2, h3]

theorem c3_dispatch_witness :
    (NewGenerator "example.com/repo" .FlatStyle
        (fun _ _ => .ok { name := "EXTERNAL" })).r "github.com/x/y" "" =
      .ok { name := "EXTERNAL" } := by
  rw [c3_dispatch "example.com/repo" .FlatStyle
    (fun _ _ => .ok { name := "EXTERNAL" }) "github.com/x/y" ""]
  decide

lemma bindOk {eps alpha beta : Type} (a : alpha) (f : alpha → Except eps beta) :
    (Except.ok a >>= f) = f a := rfl

lemma bindErr {eps alpha beta : Type} (e : eps) (f : alpha → Except eps beta) :
    (Except.error e >>= f : Except eps beta) = Except.error e := rfl

lemma pureOk {eps alpha : Type} (a : alpha) :
    (pure a : Except eps alpha) = Except.ok a := rfl

/-- The string-list value of the named attribute, or [] when absent or
not a list. -/
def Rule.AttrStrings (r : Rule) (name : String) : List String :=
  match r.attrs.find? (fun kv => kv.key == name) with
  | some ⟨_, .strs l⟩ => l
  | _ => []

/-- C5 counterexample: the directory "a/internal" has a path segment
literally named "internal", so by the claim its visibility must be
restricted; the generated primary rule is nevertheless public, because
the code only restricts on an interior "/internal/" substring or an
"internal/" front, and a trailing "internal" segment matches neither. -/
theorem c5_counterexample :
    ("internal" : String).data ∈ splitSlash ("a/internal" : String).data ∧
    ((NewGenerator "example.com/repo" .FlatStyle externalResolve).generate
        "a/internal" { name := "internal", goFiles := ["a.go"] }).map
      (fun r => r.AttrStrings "visibility") = .ok ["//visibility:public"] := by
  decide

/-- C5 (amended): the primary rule's visibility is public unless the
relative directory contains the substring "/internal/" (restricted to the
subtree rooted at the part before the last such occurrence) or starts
with "internal/" (restricted to the whole repository); a trailing or
standalone "internal" segment does not restrict visibility. -/
theorem c5_visibility (g : generator) (rel : String) (pkg : Package) (r : Rule)
    (hgen : g.generate rel pkg = .ok r) :
    (lastIndexOf rel "/internal/" = none → goHasPfx rel "internal/" = false →
      r.AttrStrings "visibility" = ["//visibility:public"]) ∧
    (lastIndexOf rel "/internal/" = none → goHasPfx rel "internal/" = true →
      r.AttrStrings "visibility" = ["//:__subpackages__"]) ∧
    (∀ i, lastIndexOf rel "/internal/" = some i →
      r.AttrStrings "visibility" = ["//" ++ strTake rel i ++ ":__subpackages__"]) := by
  unfold generator.generate at hgen
  cases hl : g.r (pathJoin [g.goPfx, rel]) "" with
  | error e =>
    rw [hl] at hgen
    rw [bindErr] at hgen
    cases hgen
  | ok l =>
    rw [hl, bindOk] at hgen
    cases hd : g.dependencies pkg.imports rel with
    | error e =>
      rw [hd, bindErr] at hgen
      cases hgen
    | ok ds =>
      rw [hd, bindOk, newRule] at hgen
      cases hgen
      refine ⟨?_, ?_, ?_⟩
      · intro hli hpfx
        simp [Rule.AttrStrings, hli, hpfx, Rule.mk.injEq, List.find?]
        cases ds with
        | nil => simp [List.find?]
        | cons d dd => simp [List.find?]
      · intro hli hpfx
        simp [Rule.AttrStrings, hli, hpfx, List.find?]
        cases ds with
        | nil => simp [List.find?]
        | cons d dd => simp [List.find?]
      · intro i hli
        simp [Rule.AttrStrings, hli, List.find?]
        cases ds with
        | nil => simp [List.find?]
        | cons d dd => simp [List.find?]

lemma generate_shape (g : generator) (rel : String) (pkg : Package) (r : Rule)
    (h : g.generate rel pkg = .ok r) :
    ∃ l ds, g.r (pathJoin [g.goPfx, rel]) "" = .ok l ∧
      g.dependencies pkg.imports rel = .ok ds ∧
      r = { kind := if pkg.IsCommand then "go_binary" else "go_library",
            args := [],
            attrs := [⟨"name", .str (if pkg.IsCommand then pathBase pkg.dir else l.name)⟩,
                      ⟨"srcs", .strs (g.refSrc rel pkg.goFiles)⟩,
                      ⟨"visibility", .strs [
                        match lastIndexOf rel "/internal/" with
                        | some i => "//" ++ strTake rel i ++ ":__subpackages__"
                        | none =>
                          if goHasPfx rel "internal/" then "//:__subpackages__"
                          else "//visibility:public"]⟩] ++
              (if ds.length > 0 then [⟨"deps", .strs ds⟩] else []) } := by
  unfold generator.generate at h
  cases hl : g.r (pathJoin [g.goPfx, rel]) "" with
  | error e => rw [hl, bindErr] at h; cases h
  | ok l =>
    rw [hl, bindOk] at h
    cases hd : g.dependencies pkg.imports rel with
    | error e => rw [hd, bindErr] at h; cases h
    | ok ds =>
      rw [hd, bindOk, newRule] at h
      cases h
      refine ⟨l, ds, rfl, rfl, ?_⟩
      by_cases hds : ds.length > 0
      · simp [hds]
      · simp [hds]

lemma generateTest_shape (g : generator) (rel : String) (pkg : Package)
    (lib : String) (t : Rule) (h : g.generateTest rel pkg lib = .ok t) :
    ∃ ds, g.dependencies pkg.testImports rel = .ok ds ∧
      t.attrs.map (fun kv => kv.key) =
        ["name", "srcs", "library"] ++ (if ds.length > 0 then ["deps"] else []) := by
  unfold generator.generateTest at h
  cases hd : g.dependencies pkg.testImports rel with
  | error e => rw [hd, bindErr] at h; cases h
  | ok ds =>
    rw [hd, bindOk, newRule] at h
    cases h
    refine ⟨ds, rfl, ?_⟩
    by_cases hds : ds.length > 0
    · simp [hds]
    · simp [hds]

lemma generateXTest_shape (g : generator) (rel : String) (pkg : Package)
    (lib : String) (x : Rule) (h : g.generateXTest rel pkg lib = .ok x) :
    x.attrs.map (fun kv => kv.key) = ["name", "srcs", "deps"] := by
  unfold generator.generateXTest at h
  cases hd : g.dependencies pkg.xtestImports rel with
  | error e => rw [hd, bindErr] at h; cases h
  | ok ds =>
    rw [hd, bindOk, newRule] at h
    cases h
    rfl

/-- C4 counterexample: at the repository root (rel = "") the generator
prepends a go_prefix rule, so a root package with test files and no
external test files yields three rules, not the claimed two. -/
theorem c4_counterexample :
    (({ name := "p", goFiles := ["a.go"], testGoFiles := ["a_test.go"] } : Package).testGoFiles
        ≠ [] ∧
     ({ name := "p", goFiles := ["a.go"], testGoFiles := ["a_test.go"] } : Package).xtestGoFiles
        = []) ∧
    ((NewGenerator "example.com/repo" .FlatStyle externalResolve).Generate ""
        { name := "p", goFiles := ["a.go"], testGoFiles := ["a_test.go"] }).map
      List.length = .ok 3 := by decide

/-- C4 (amended): for every NON-ROOT package (rel ≠ "") whose generation
succeeds, test files and no external test files give exactly two rules;
non-empty external test files add exactly one more rule, and that third
rule carries no library attribute.  (At the repository root one extra
go_prefix rule is prepended.) -/
theorem c4_rule_count (g : generator) (rel : String) (pkg : Package)
    (rs : List Rule) (hrel : rel ≠ "")
    (hgen : g.Generate rel pkg = .ok rs) (ht : pkg.testGoFiles ≠ []) :
    (pkg.xtestGoFiles = [] → rs.length = 2) ∧
    (pkg.xtestGoFiles ≠ [] → ∃ r t x, rs = [r, t, x] ∧
      x.attrs.find? (fun kv => kv.key == "library") = none) := by
  unfold generator.Generate at hgen
  rw [if_neg hrel] at hgen
  have htpos : pkg.testGoFiles.length > 0 := List.length_pos.mpr ht
  cases hr : g.generate rel pkg with
  | error e => simp only [hr] at hgen; cases hgen
  | ok r0 =>
    simp only [hr] at hgen
    rw [if_pos htpos] at hgen
    cases hts : g.generateTest rel pkg (r0.AttrString "name") with
    | error e => simp only [hts, Except.map] at hgen; cases hgen
    | ok t0 =>
      simp only [hts, Except.map] at hgen
      refine ⟨fun hx => ?_, fun hx => ?_⟩
      · rw [hx] at hgen
        simp only [List.length_nil, gt_iff_lt, lt_self_iff_false, if_false] at hgen
        cases hgen
        rfl
      · have hxpos : pkg.xtestGoFiles.length > 0 := List.length_pos.mpr hx
        rw [if_pos hxpos] at hgen
        cases hxs : g.generateXTest rel pkg (r0.AttrString "name") with
        | error e => simp only [hxs, Except.map] at hgen; cases hgen
        | ok x0 =>
          simp only [hxs, Except.map] at hgen
          cases hgen
          refine ⟨r0, t0, x0, rfl, ?_⟩
          have hk := generateXTest_shape g rel pkg _ x0 hxs
          rw [List.find?_eq_none]
          intro kv hkv
          have hmem : kv.key ∈ x0.attrs.map (fun kv => kv.key) :=
            List.mem_map_of_mem _ hkv
          rw [hk] at hmem
          simp only [List.mem_cons, List.not_mem_nil, or_false] at hmem
          rcases hmem with h1 | h1 | h1 <;> simp [h1]

theorem c4_rule_count_witness :
    ∃ rs, (NewGenerator "example.com/repo" .FlatStyle externalResolve).Generate "lib"
        { name := "lib", goFiles := ["lib.go"], testGoFiles := ["lib_test.go"],
          xtestGoFiles := ["lib_x_test.go"] } = .ok rs ∧
      ∃ r t x, rs = [r, t, x] ∧
        x.attrs.find? (fun kv => kv.key == "library") = none := by
  cases hgen : (NewGenerator "example.com/repo" .FlatStyle externalResolve).Generate "lib"
      { name := "lib", goFiles := ["lib.go"], testGoFiles := ["lib_test.go"],
        xtestGoFiles := ["lib_x_test.go"] } with
  | error e =>
    have hok : ((NewGenerator "example.com/repo" .FlatStyle externalResolve).Generate "lib"
        { name := "lib", goFiles := ["lib.go"], testGoFiles := ["lib_test.go"],
          xtestGoFiles := ["lib_x_test.go"] }).isOk = true := by decide
    rw [hgen] at hok
    simp [Except.isOk, Except.toBool] at hok
  | ok rs =>
    exact ⟨rs, rfl,
      (c4_rule_count _ "lib" _ rs (by decide) hgen (by decide)).2 (by decide)⟩

/-- C10: the external-test rule always carries a deps attribute even when
its dependency list is empty, while the primary rule and the internal
test rule include deps only when their dependency lists are non-empty. -/
theorem c10_xtest_deps (g : generator) (rel : String) (pkg : Package) (lib : String) :
    (∀ x, g.generateXTest rel pkg lib = .ok x →
      "deps" ∈ x.attrs.map (fun kv => kv.key)) ∧
    (∀ t, g.generateTest rel pkg lib = .ok t →
      ∀ ds, g.dependencies pkg.testImports rel = .ok ds →
        (("deps" ∈ t.attrs.map (fun kv => kv.key)) ↔ ds ≠ [])) ∧
    (∀ r, g.generate rel pkg = .ok r →
      ∀ ds, g.dependencies pkg.imports rel = .ok ds →
        (("deps" ∈ r.attrs.map (fun kv => kv.key)) ↔ ds ≠ [])) := by
  refine ⟨?_, ?_, ?_⟩
  · intro x hx
    rw [generateXTest_shape g rel pkg lib x hx]
    decide
  · intro t ht ds hds
    obtain ⟨ds', hds', hkeys⟩ := generateTest_shape g rel pkg lib t ht
    rw [hds'] at hds
    cases hds
    rw [hkeys]
    by_cases h0 : ds.length > 0
    · have : ds ≠ [] := by
        intro he
        rw [he] at h0
        exact absurd h0 (by decide)
      simp [h0, this]
    · have : ds = [] := by
        cases ds with
        | nil => rfl
        | cons a as => exact absurd (by simp) h0
      simp [h0, this]
  · intro r hr ds hds
    obtain ⟨l, ds', _, hds', hrule⟩ := generate_shape g rel pkg r hr
    rw [hds'] at hds
    cases hds
    rw [hrule]
    by_cases h0 : ds.length > 0
    · have : ds ≠ [] := by
        intro he
        rw [he] at h0
        exact absurd h0 (by decide)
      simp [h0, this]
    · have : ds = [] := by
        cases ds with
        | nil => rfl
        | cons a as => exact absurd (by simp) h0
      simp [h0, this]

theorem c10_xtest_deps_witness :
    ∃ x, (NewGenerator "example.com/repo" .FlatStyle externalResolve).generateXTest
        "lib" { name := "lib", xtestGoFiles := ["lib_x_test.go"] } "lib" = .ok x ∧
      "deps" ∈ x.attrs.map (fun kv => kv.key) := by
  cases hx : (NewGenerator "example.com/repo" .FlatStyle externalResolve).generateXTest
      "lib" { name := "lib", xtestGoFiles := ["lib_x_test.go"] } "lib" with
  | error e =>
    have hok : ((NewGenerator "example.com/repo" .FlatStyle externalResolve).generateXTest
        "lib" { name := "lib", xtestGoFiles := ["lib_x_test.go"] } "lib").isOk = true := by
      decide
    rw [hx] at hok
    simp [Except.isOk, Except.toBool] at hok
  | ok x0 =>
    exact ⟨x0, rfl,
      (c10_xtest_deps (NewGenerator "example.com/repo" .FlatStyle externalResolve)
        "lib" { name := "lib", xtestGoFiles := ["lib_x_test.go"] } "lib").1 x0 hx⟩

theorem c5_visibility_witness :
    ∃ r, (NewGenerator "example.com/repo" .FlatStyle externalResolve).generate
        "a/internal/b" { name := "b", goFiles := ["b.go"] } = .ok r ∧
      r.AttrStrings "visibility" = ["//a:__subpackages__"] := by
  cases hgen : (NewGenerator "example.com/repo" .FlatStyle externalResolve).generate
      "a/internal/b" { name := "b", goFiles := ["b.go"] } with
  | error e =>
    have hok : ((NewGenerator "example.com/repo" .FlatStyle externalResolve).generate
        "a/internal/b" { name := "b", goFiles := ["b.go"] }).isOk = true := by decide
    rw [hgen] at hok
    simp [Except.isOk, Except.toBool] at hok
  | ok r =>
    refine ⟨r, rfl, ?_⟩
    have h := (c5_visibility _ "a/internal/b" _ r hgen).2.2 1 (by decide)
    rw [h]
    decide

/-- C6: the primary rule's attributes appear in the fixed order name,
srcs, visibility, deps, with deps present only when the resolved
dependency list is non-empty, and srcs is the source-file list unchanged
under Structured style and directory-qualified (path.Join of the relative
directory and the file name) under Flat style. -/
theorem c6_attr_order (goPfx : String) (st : Style)
    (e : String → String → Except String label) (rel : String) (pkg : Package)
    (r : Rule)
    (hgen : (NewGenerator goPfx st e).generate rel pkg = .ok r) :
    ∃ ds, (NewGenerator goPfx st e).dependencies pkg.imports rel = .ok ds ∧
      r.attrs.map (fun kv => kv.key) =
        ["name", "srcs", "visibility"] ++ (if ds = [] then [] else ["deps"]) ∧
      r.AttrStrings "srcs" =
        (if st = .StructuredStyle then pkg.goFiles
         else pkg.goFiles.map (fun f => pathJoin [rel, f])) := by
  obtain ⟨l, ds, _, hds, hrule⟩ :=
    generate_shape (NewGenerator goPfx st e) rel pkg r hgen
  refine ⟨ds, hds, ?_, ?_⟩
  · rw [hrule]
    cases ds with
    | nil => simp
    | cons d dd => simp
  · rw [hrule]
    have href : (NewGenerator goPfx st e).refSrc =
        (match st with
         | .StructuredStyle => fun _ srcs => srcs
         | .FlatStyle => fun rel srcs => srcs.map (fun f => pathJoin [rel, f])) := by
      cases st <;> rfl
    cases st with
    | StructuredStyle =>
      simp only [href, if_pos]
      by_cases hds0 : ds.length > 0
      · simp [Rule.AttrStrings, hds0, List.find?]
      · simp [Rule.AttrStrings, hds0, List.find?]
    | FlatStyle =>
      have hne : (Style.FlatStyle = Style.StructuredStyle) = False := by simp
      simp only [href, hne, if_false]
      by_cases hds0 : ds.length > 0
      · simp [Rule.AttrStrings, hds0, List.find?]
      · simp [Rule.AttrStrings, hds0, List.find?]

theorem c6_attr_order_witness :
    ∃ r, (NewGenerator "example.com/repo" .FlatStyle externalResolve).generate
        "lib" { name := "lib", goFiles := ["a.go", "b.go"] } = .ok r ∧
      r.attrs.map (fun kv => kv.key) = ["name", "srcs", "visibility"] ∧
      r.AttrStrings "srcs" = ["lib/a.go", "lib/b.go"] := by
  cases hgen : (NewGenerator "example.com/repo" .FlatStyle externalResolve).generate
      "lib" { name := "lib", goFiles := ["a.go", "b.go"] } with
  | error e =>
    have hok : ((NewGenerator "example.com/repo" .FlatStyle externalResolve).generate
        "lib" { name := "lib", goFiles := ["a.go", "b.go"] }).isOk = true := by decide
    rw [hgen] at hok
    simp [Except.isOk, Except.toBool] at hok
  | ok r =>
    refine ⟨r, rfl, ?_⟩
    obtain ⟨ds, hds, hkeys, hsrcs⟩ :=
      c6_attr_order "example.com/repo" .FlatStyle externalResolve "lib"
        { name := "lib", goFiles := ["a.go", "b.go"] } r hgen
    have hds0 : ds = [] := by
      have : (NewGenerator "example.com/repo" .FlatStyle externalResolve).dependencies
          ([] : List String) "lib" = .ok [] := by decide
      rw [this] at hds
      cases hds
      rfl
    rw [hds0] at hkeys
    refine ⟨by simpa using hkeys, by simpa using hsrcs⟩

lemma dependencies_fail (g : generator) (imports : List String) (dir : String)
    (h : ∃ p ∈ imports, isStandard p = false ∧ ∃ e, g.r p dir = .error e) :
    ∃ e, g.dependencies imports dir = .error e := by
  induction imports with
  | nil =>
    obtain ⟨p, hp, _⟩ := h
    cases hp
  | cons q rest ih =>
    obtain ⟨p, hp, hstd, e, he⟩ := h
    unfold generator.dependencies
    by_cases hq : isStandard q = true
    · rw [if_pos hq]
      apply ih
      rcases List.mem_cons.mp hp with rfl | hmem
      · rw [hq] at hstd
        cases hstd
      · exact ⟨p, hmem, hstd, e, he⟩
    · rw [if_neg hq]
      cases hr : g.r q dir with
      | error e2 => exact ⟨e2, by rw [bindErr]⟩
      | ok l =>
        rcases List.mem_cons.mp hp with rfl | hmem
        · rw [he] at hr
          cases hr
        · obtain ⟨e3, he3⟩ := ih ⟨p, hmem, hstd, e, he⟩
          exact ⟨e3, by simp only [bindOk, he3, bindErr]⟩

lemma generate_fail (g : generator) (rel : String) (pkg : Package)
    (h : ∃ e, g.dependencies pkg.imports rel = .error e) :
    ∃ e, g.generate rel pkg = .error e := by
  obtain ⟨e, he⟩ := h
  unfold generator.generate
  cases hl : g.r (pathJoin [g.goPfx, rel]) "" with
  | error e2 => exact ⟨e2, by rw [bindErr]⟩
  | ok l => exact ⟨e, by simp only [bindOk, he, bindErr]⟩

lemma generateTest_fail (g : generator) (rel : String) (pkg : Package) (lib : String)
    (h : ∃ e, g.dependencies pkg.testImports rel = .error e) :
    ∃ e, g.generateTest rel pkg lib = .error e := by
  obtain ⟨e, he⟩ := h
  exact ⟨e, by unfold generator.generateTest; simp only [he, bindErr]⟩

lemma generateXTest_fail (g : generator) (rel : String) (pkg : Package) (lib : String)
    (h : ∃ e, g.dependencies pkg.xtestImports rel = .error e) :
    ∃ e, g.generateXTest rel pkg lib = .error e := by
  obtain ⟨e, he⟩ := h
  exact ⟨e, by unfold generator.generateXTest; simp only [he, bindErr]⟩

/-- C8: if resolving any import entry of an applicable scope (main
always; test when test files exist; external-test when external test
files exist) fails, the whole package's Generate call returns an error,
so no rule list is produced for it. -/
theorem c8_error_abort (g : generator) (rel : String) (pkg : Package) :
    ((∃ p ∈ pkg.imports, isStandard p = false ∧ ∃ e, g.r p rel = .error e) →
      ∃ e, g.Generate rel pkg = .error e) ∧
    (pkg.testGoFiles ≠ [] →
      (∃ p ∈ pkg.testImports, isStandard p = false ∧ ∃ e, g.r p rel = .error e) →
      ∃ e, g.Generate rel pkg = .error e) ∧
    (pkg.xtestGoFiles ≠ [] →
      (∃ p ∈ pkg.xtestImports, isStandard p = false ∧ ∃ e, g.r p rel = .error e) →
      ∃ e, g.Generate rel pkg = .error e) := by
  have hpre : (if rel = "" then (newRule "go_prefix" [g.goPfx] []).map (fun p => [p])
      else (.ok [] : Except String (List Rule))) =
      .ok (if rel = "" then [{ kind := "go_prefix", args := [g.goPfx], attrs := [] }]
           else []) := by
    by_cases hrel : rel = "" <;> simp [hrel, newRule, Except.map]
  refine ⟨?_, ?_, ?_⟩
  · intro h
    obtain ⟨e0, hg⟩ := generate_fail g rel pkg (dependencies_fail g pkg.imports rel h)
    exact ⟨e0, by unfold generator.Generate; simp only [hpre, hg]⟩
  · intro ht h
    cases hg : g.generate rel pkg with
    | error e0 => exact ⟨e0, by unfold generator.Generate; simp only [hpre, hg]⟩
    | ok r =>
      obtain ⟨e1, ht1⟩ := generateTest_fail g rel pkg (r.AttrString "name")
        (dependencies_fail g pkg.testImports rel h)
      refine ⟨e1, ?_⟩
      unfold generator.Generate
      simp only [hpre, hg]
      rw [if_pos (List.length_pos.mpr ht)]
      simp only [ht1, Except.map]
  · intro hx h
    cases hg : g.generate rel pkg with
    | error e0 => exact ⟨e0, by unfold generator.Generate; simp only [hpre, hg]⟩
    | ok r =>
      cases hts : (if pkg.testGoFiles.length > 0 then
          (g.generateTest rel pkg (r.AttrString "name")).map (fun t => [t])
        else (.ok [] : Except String (List Rule))) with
      | error e1 =>
        exact ⟨e1, by unfold generator.Generate; simp only [hpre, hg, hts]⟩
      | ok ts =>
        obtain ⟨e2, hx2⟩ := generateXTest_fail g rel pkg (r.AttrString "name")
          (dependencies_fail g pkg.xtestImports rel h)
        refine ⟨e2, ?_⟩
        unfold generator.Generate
        simp only [hpre, hg, hts]
        rw [if_pos (List.length_pos.mpr hx)]
        simp only [hx2, Except.map]

theorem c8_error_abort_witness :
    ∃ e, (NewGenerator "example.com/repo" .FlatStyle externalResolve).Generate "lib"
        { name := "lib", goFiles := ["a.go"], imports := ["./../../x"] } = .error e := by
  refine (c8_error_abort (NewGenerator "example.com/repo" .FlatStyle externalResolve)
    "lib" { name := "lib", goFiles := ["a.go"], imports := ["./../../x"] }).1
    ⟨"./../../x", by decide, by decide, ?_⟩
  cases hr : (NewGenerator "example.com/repo" .FlatStyle externalResolve).r
      "./../../x" "lib" with
  | error e => exact ⟨e, rfl⟩
  | ok l =>
    have hok : ((NewGenerator "example.com/repo" .FlatStyle externalResolve).r
        "./../../x" "lib").isOk = false := by decide
    rw [hr] at hok
    simp [Except.isOk, Except.toBool] at hok

lemma Rules_load_cons (p src : String) (ks : List String) (st : List Stmt)
    (k : String) :
    File.Rules { path := p, stmt := .load src ks :: st } k =
    File.Rules { path := p, stmt := st } k := by
  simp [File.Rules, List.filterMap_cons]

lemma load_not_mem_map_call (src : String) (ks : List String) (rs : List Rule) :
    Stmt.load src ks ∉ rs.map Stmt.call := by
  intro hmem
  obtain ⟨r, _, heq⟩ := List.mem_map.mp hmem
  cases heq

example :
    List.Sorted (fun a b : String => a ≤ b)
      (List.insertionSort (fun a b : String => a ≤ b) ["b", "a"]) :=
  List.sorted_insertionSort _ _

/-- C7: a produced File carries exactly one load statement, prepended,
whose kind list is the lexicographically sorted duplicate-free set of
recognized rule kinds present in the File, and carries no load statement
at all when no recognized kind is present. -/
theorem c7_load (bn : String) (gr : generator) (rel : String) (pkg : Package)
    (f : File) (h : generateOne bn gr rel pkg = .ok f) :
    ((∀ k ∈ loadVocab, f.Rules k = []) → ∀ src ks, Stmt.load src ks ∉ f.stmt) ∧
    ((∃ k ∈ loadVocab, f.Rules k ≠ []) →
      ∃ ks rest, f.stmt = Stmt.load GoRulesBzl ks :: rest ∧
        (∀ src ks2, Stmt.load src ks2 ∉ rest) ∧
        List.Sorted (fun a b : String => a ≤ b) ks ∧ ks.Nodup ∧
        (∀ k, k ∈ ks ↔ (k ∈ loadVocab ∧ f.Rules k ≠ []))) := by
  unfold generateOne at h
  cases hrs : gr.Generate rel pkg with
  | error e => rw [hrs, bindErr] at h; cases h
  | ok rs =>
    simp only [hrs, bindOk] at h
    cases hload : generateLoad { path := pathJoin [rel, bn], stmt := rs.map .call } with
    | none =>
      simp only [hload] at h
      cases h
      have hlist : (loadVocab.filter (fun kind =>
          (File.Rules { path := pathJoin [rel, bn], stmt := rs.map .call } kind).length
            > 0)) = [] := by
        unfold generateLoad at hload
        by_cases hlen : (loadVocab.filter (fun kind =>
            (File.Rules { path := pathJoin [rel, bn], stmt := rs.map .call } kind).length
              > 0)).length = 0
        · exact List.eq_nil_of_length_eq_zero hlen
        · rw [if_neg hlen] at hload
          cases hload
      refine ⟨fun _ src ks hmem => load_not_mem_map_call src ks rs hmem, ?_⟩
      rintro ⟨k, hk, hne⟩
      exfalso
      have := List.filter_eq_nil_iff.mp hlist k hk
      simp only [decide_eq_true_eq, gt_iff_lt] at this
      exact this (List.length_pos.mpr hne)
    | some l =>
      simp only [hload] at h
      cases h
      have hlen : ¬ (loadVocab.filter (fun kind =>
          (File.Rules { path := pathJoin [rel, bn], stmt := rs.map .call } kind).length
            > 0)).length = 0 := by
        intro hlen
        unfold generateLoad at hload
        rw [if_pos hlen] at hload
        cases hload
      have hl : l = loadExpr (loadVocab.filter (fun kind =>
          (File.Rules { path := pathJoin [rel, bn], stmt := rs.map .call } kind).length
            > 0)) := by
        unfold generateLoad at hload
        rw [if_neg hlen] at hload
        cases hload
        rfl
      subst hl
      simp only [loadExpr]
      constructor
      · intro hall src ks _
        exfalso
        apply hlen
        rw [List.length_eq_zero, List.filter_eq_nil_iff]
        intro k hk
        have h2 := hall k hk
        rw [Rules_load_cons] at h2
        simp [h2]
      · intro
        refine ⟨_, _, rfl, ?_, ?_, ?_, ?_⟩
        · exact fun src ks2 => load_not_mem_map_call src ks2 rs
        · exact List.sorted_insertionSort _ _
        · exact (List.perm_insertionSort _ _).nodup_iff.mpr
            (List.Nodup.filter _ (by decide))
        · intro k
          rw [(List.perm_insertionSort _ _).mem_iff, List.mem_filter]
          constructor
          · rintro ⟨hkv, hpred⟩
            refine ⟨hkv, ?_⟩
            rw [Rules_load_cons]
            simp only [decide_eq_true_eq, gt_iff_lt] at hpred
            intro hnil
            rw [hnil] at hpred
            exact absurd hpred (by decide)
          · rintro ⟨hkv, hne⟩
            refine ⟨hkv, ?_⟩
            rw [Rules_load_cons] at hne
            simp only [decide_eq_true_eq, gt_iff_lt]
            exact List.length_pos.mpr hne

theorem c7_load_witness :
    ∃ f, generateOne "BUILD" (NewGenerator "example.com/repo" .FlatStyle externalResolve)
        "lib" { name := "lib", goFiles := ["a.go"] } = .ok f ∧
      ∃ ks rest, f.stmt = Stmt.load GoRulesBzl ks :: rest ∧
        List.Sorted (fun a b : String => a ≤ b) ks ∧ ks.Nodup := by
  have hval : generateOne "BUILD"
      (NewGenerator "example.com/repo" .FlatStyle externalResolve)
      "lib" { name := "lib", goFiles := ["a.go"] } =
      .ok { path := "lib/BUILD",
            stmt := [Stmt.load "@io_bazel_rules_go//go:def.bzl" ["go_library"],
                     Stmt.call { kind := "go_library", args := [],
                                 attrs := [⟨"name", .str "lib"⟩,
                                           ⟨"srcs", .strs ["lib/a.go"]⟩,
                                           ⟨"visibility", .strs ["//visibility:public"]⟩] }] } := by
    decide
  obtain ⟨ks, rest, hstmt, _, hsort, hnd, _⟩ :=
    (c7_load "BUILD" (NewGenerator "example.com/repo" .FlatStyle externalResolve)
      "lib" { name := "lib", goFiles := ["a.go"] } _ hval).2
      ⟨"go_library", by decide, by decide⟩
  exact ⟨_, hval, ks, rest, hstmt, hsort, hnd⟩

/-- C9: Generate is deterministic — two runs over the same
walker-delivered package sequence with the same configuration produce
File documents with identical paths and identical statement sequences. -/
theorem c9_deterministic (goPfx bn : String) (gr : generator)
    (pkgs : List (String × Package)) (fs1 fs2 : List File)
    (h1 : generateFiles goPfx bn gr pkgs = .ok fs1)
    (h2 : generateFiles goPfx bn gr pkgs = .ok fs2) :
    fs1.map File.path = fs2.map File.path ∧ fs1.map File.stmt = fs2.map File.stmt := by
  rw [h1] at h2
  cases h2
  exact ⟨rfl, rfl⟩

theorem c9_deterministic_witness :
    ∃ fs, generateFiles "example.com/repo" "BUILD"
        (NewGenerator "example.com/repo" .FlatStyle externalResolve)
        [("lib", { name := "lib", goFiles := ["a.go"] })] = .ok fs ∧
      fs.map File.path = fs.map File.path ∧ fs.map File.stmt = fs.map File.stmt := by
  cases hg : generateFiles "example.com/repo" "BUILD"
      (NewGenerator "example.com/repo" .FlatStyle externalResolve)
      [("lib", { name := "lib", goFiles := ["a.go"] })] with
  | error e =>
    have hok : (generateFiles "example.com/repo" "BUILD"
        (NewGenerator "example.com/repo" .FlatStyle externalResolve)
        [("lib", { name := "lib", goFiles := ["a.go"] })]).isOk = true := by decide
    rw [hg] at hok
    simp [Except.isOk, Except.toBool] at hok
  | ok fs =>
    exact ⟨fs, rfl, c9_deterministic "example.com/repo" "BUILD"
      (NewGenerator "example.com/repo" .FlatStyle externalResolve)
      [("lib", { name := "lib", goFiles := ["a.go"] })] fs fs hg hg⟩
